import Mathlib

/- Verification development for a two-pipeline repository:
   Pipeline A, a directory-listing transform (maltego_trx.py), and
   Pipeline B, a mailbox-polling report script (email_report.py).
   Each definition is a shallow embedding of the corresponding Python
   function; external effects (filesystem, network, clock) are passed in
   explicitly as environment data, and Python exceptions are modelled with
   Except / explicit outcome constructors. -/

namespace PyStr

/- Helpers modelling Python string and int behaviour used by both pipelines. -/

/-- Numeric value of a big-endian list of ASCII digit characters. -/
def digitsVal (l : List Char) : Nat :=
  l.foldl (fun a c => a * 10 + (c.toNat - 48)) 0

/-- The character for a single decimal digit. -/
def digitChar (d : Nat) : Char := Char.ofNat (48 + d)

/-- Decimal rendering of a natural number, as Python str(n) produces. -/
def natChars (n : Nat) : List Char :=
  if n = 0 then [Char.ofNat 48] else ((Nat.digits 10 n).map digitChar).reverse

/-- Parse a nonempty all-digit character list, as int() applied to a
regex group matched by a digits-only pattern. Returns none otherwise. -/
def parseNat (l : List Char) : Option Nat :=
  if !l.isEmpty && l.all Char.isDigit then some (digitsVal l) else none

/-- Whitespace accepted by Python int() around the number. -/
def isPySpace (c : Char) : Bool :=
  c = ' ' || c = '\t' || c = '\n' || c = '\r' || c = '\x0b' || c = '\x0c'

/-- Strip leading and trailing whitespace, as Python int() does. -/
def stripChars (l : List Char) : List Char :=
  ((l.dropWhile isPySpace).reverse.dropWhile isPySpace).reverse

/-- After a leading digit, Python int() accepts digits with single
underscores placed strictly between digits. -/
def pyDigitsTail : List Char → Bool
  | [] => true
  | '_' :: rest =>
    match rest with
    | c :: rest2 => c.isDigit && pyDigitsTail rest2
    | [] => false
  | c :: rest => c.isDigit && pyDigitsTail rest

/-- Digit-group grammar of Python int(): digits with underscore grouping. -/
def pyDigitsValid (l : List Char) : Bool :=
  match l with
  | [] => false
  | c :: rest => c.isDigit && pyDigitsTail rest

/-- Python int() applied to a character list: optional surrounding
whitespace, optional sign, digits with underscore grouping. Unicode digits
are not modelled (environment values here are ASCII). Returns none when
Python would raise ValueError. -/
def pyIntChars (l : List Char) : Option Int :=
  let t := stripChars l
  let core := fun (ds : List Char) (sign : Int) =>
    if pyDigitsValid ds then
      some (sign * (digitsVal (ds.filter (fun c => !(c == '_'))) : Int))
    else none
  match t with
  | '+' :: rest => core rest 1
  | '-' :: rest => core rest (-1)
  | _ => core t 1

/-- Python int() on a string, none when int() would raise. -/
def pyIntOfString (s : String) : Option Int := pyIntChars s.data

/-- ASCII lowering of one character, as Python str.lower() acts on the
ASCII range (the strings compared in this code are ASCII). -/
def lowerChar (c : Char) : Char :=
  if 65 ≤ c.toNat ∧ c.toNat ≤ 90 then Char.ofNat (c.toNat + 32) else c

/-- ASCII raising of one character, as Python str.upper() acts on the
ASCII range. -/
def upperChar (c : Char) : Char :=
  if 97 ≤ c.toNat ∧ c.toNat ≤ 122 then Char.ofNat (c.toNat - 32) else c

/-- Python str.lower(), restricted to ASCII. -/
def lowerStr (s : String) : String := String.mk (s.data.map lowerChar)

/-- Python str.upper(), restricted to ASCII. -/
def upperStr (s : String) : String := String.mk (s.data.map upperChar)

end PyStr

namespace ListFilesA

open PyStr

/-- A directory listing as seen by os.scandir, modelled as a sibling chain
so that plain structural recursion mirrors the scan loop. Symlinks carry
what they point at but entry.is_file and entry.is_dir are queried with
follow_symlinks=False, so the walker classifies them as neither. `other`
covers entries that are neither regular files nor directories. -/
inductive FsTree where
  | nil : FsTree
  | file (name : String) (rest : FsTree) : FsTree
  | dir (name : String) (children : FsTree) (rest : FsTree) : FsTree
  | symlinkFile (name : String) (rest : FsTree) : FsTree
  | symlinkDir (name : String) (target : FsTree) (rest : FsTree) : FsTree
  | other (name : String) (rest : FsTree) : FsTree
deriving Repr, DecidableEq

/-- The guard `max_depth is None or cur_depth < max_depth` from iter_files. -/
def depthAllows (maxDepth : Option Int) (curDepth : Nat) : Bool :=
  match maxDepth with
  | none => true
  | some d => decide ((curDepth : Int) < d)

/-- Shallow embedding of iter_files from maltego_trx.py: yields
(path components, depth) for each regular file; descends into a directory
entry only when recursion is on and the depth guard allows it; symlinks
and other entry kinds yield nothing and are never descended into.
The per-entry PermissionError / OSError handlers are environmental
failures not modelled here (no claim under proof concerns them). -/
def iterFiles (recursive : Bool) (maxDepth : Option Int) (pref : List String)
    (curDepth : Nat) : FsTree → List (List String × Nat)
  | .nil => []
  | .file n rest =>
      (pref ++ [n], curDepth) :: iterFiles recursive maxDepth pref curDepth rest
  | .dir n children rest =>
      (if recursive && depthAllows maxDepth curDepth then
        iterFiles recursive maxDepth (pref ++ [n]) (curDepth + 1) children
      else []) ++ iterFiles recursive maxDepth pref curDepth rest
  | .symlinkFile _ rest => iterFiles recursive maxDepth pref curDepth rest
  | .symlinkDir _ _ rest => iterFiles recursive maxDepth pref curDepth rest
  | .other _ rest => iterFiles recursive maxDepth pref curDepth rest

/-- Spec-side description for C1: one record per direct-child regular
file of the root, at depth 0, in listing order, and nothing else. -/
def directChildFiles : FsTree → List (List String × Nat)
  | .nil => []
  | .file n rest => ([n], 0) :: directChildFiles rest
  | .dir _ _ rest => directChildFiles rest
  | .symlinkFile _ rest => directChildFiles rest
  | .symlinkDir _ _ rest => directChildFiles rest
  | .other _ rest => directChildFiles rest

/-- Spec-side transformation for C9: delete every symlink entry, at all
depths, keeping everything else. -/
def removeSymlinks : FsTree → FsTree
  | .nil => .nil
  | .file n rest => .file n (removeSymlinks rest)
  | .dir n children rest => .dir n (removeSymlinks children) (removeSymlinks rest)
  | .symlinkFile _ rest => removeSymlinks rest
  | .symlinkDir _ _ rest => removeSymlinks rest
  | .other n rest => .other n (removeSymlinks rest)

/-- The test `str(v).lower() in ('1', 'true', 'yes')` used for flags. -/
def truthyFlag (s : String) : Bool :=
  lowerStr s == "1" || lowerStr s == "true" || lowerStr s == "yes"

/-- Python `a or b` on an optional string: None and the empty string are
falsy and fall through to the second operand. -/
def orParam (a b : Option String) : Option String :=
  match a with
  | some s => if s = "" then b else some s
  | none => b

/-- Resolution of the recursion flag (maltego_trx.py lines 52-61):
the environment value (default '1') decides unless a request parameter
value is present, in which case that value decides. -/
def resolveRecursive (reqRecursive envRecursive : Option String) : Bool :=
  match reqRecursive with
  | some v => truthyFlag v
  | none => truthyFlag (envRecursive.getD "1")

/-- Resolution of max_depth (maltego_trx.py lines 57, 63-73):
req_maxdepth = param 'max_depth' or param 'maxdepth' (Python or, so an
empty-string first value falls through); if that is not None, int() it
with failure giving None; otherwise, if the environment variable is set,
int() it with failure giving None; otherwise None. -/
def resolveMaxDepth (reqMd reqMd2 envMd : Option String) : Option Int :=
  match orParam reqMd reqMd2 with
  | some s => pyIntOfString s
  | none =>
    match envMd with
    | some s => pyIntOfString s
    | none => none

/-- What the filesystem says about request.Value. -/
inductive PathState where
  | missing : PathState
  | notDir : PathState
  | dir (tree : FsTree) : PathState
deriving Repr

/-- The transform request: the input path's state plus the values the
parameter-accessor chain _get_req_param resolves to (collapsed into one
optional value per parameter name). -/
structure Request where
  pathState : PathState
  recursiveParam : Option String
  maxDepthParam : Option String
  maxDepthParam2 : Option String

/-- The two environment variables consulted by the transform. -/
structure ListEnv where
  listfilesRecursive : Option String
  listfilesMaxDepth : Option String

/-- UI messages: errorMsg for addUIMessage with messageType PartialError,
infoMsg for the default-type summary message, carried as structured data
(total emitted, recursion flag, depth limit) rather than formatted text. -/
inductive UIMsg where
  | errorMsg : UIMsg
  | infoMsg (total : Nat) (recursive : Bool) (maxDepth : Option Int) : UIMsg
deriving Repr, DecidableEq

/-- Whether a UI message is the informational summary. -/
def UIMsg.isInfo : UIMsg → Bool
  | .errorMsg => false
  | .infoMsg _ _ _ => true

/-- What a transform run produces: emitted entity records (entity value is
the file path; the attached depth property is kept, the derived parent /
relative-path / size properties are functions of the path and are not
modelled) and UI messages, in order. -/
structure TransformOutput where
  entities : List (List String × Nat)
  messages : List UIMsg
deriving Repr

/-- Shallow embedding of ListFiles.create_entities: validate the path
(early return with a PartialError message when missing or not a
directory), resolve recursion and depth, walk, emit one entity per file,
and finish with exactly one summary message. -/
def create_entities (req : Request) (env : ListEnv) : TransformOutput :=
  match req.pathState with
  | .missing => { entities := [], messages := [.errorMsg] }
  | .notDir => { entities := [], messages := [.errorMsg] }
  | .dir t =>
    let recursive := resolveRecursive req.recursiveParam env.listfilesRecursive
    let maxDepth := resolveMaxDepth req.maxDepthParam req.maxDepthParam2 env.listfilesMaxDepth
    let files := iterFiles recursive maxDepth [] 0 t
    { entities := files, messages := [.infoMsg files.length recursive maxDepth] }

end ListFilesA

namespace ListFilesA

/-- With recursion on and an explicit depth limit of 0, the walk emits
exactly the direct-child regular files of the root, each at depth 0. -/
theorem iterFiles_depth_zero (t : FsTree) :
    iterFiles true (some 0) [] 0 t = directChildFiles t := by
  induction t with
  | nil => rfl
  | file n rest ih => simp [iterFiles, directChildFiles, ih]
  | dir n children rest _ ih2 =>
      simp [iterFiles, directChildFiles, depthAllows, ih2]
  | symlinkFile n rest ih => simp [iterFiles, directChildFiles, ih]
  | symlinkDir n target rest _ ih2 => simp [iterFiles, directChildFiles, ih2]
  | other n rest ih => simp [iterFiles, directChildFiles, ih]

end ListFilesA

/-- C1: for every existing directory input, when the resolved settings are
recursion enabled and max_depth = 0, create_entities emits exactly one
record per regular file that is a direct child of the root, at depth 0,
and no record for any deeper entry. -/
theorem listfiles_max_depth_zero (req : ListFilesA.Request) (env : ListFilesA.ListEnv)
    (t : ListFilesA.FsTree)
    (hpath : req.pathState = .dir t)
    (hrec : ListFilesA.resolveRecursive req.recursiveParam env.listfilesRecursive = true)
    (hdepth : ListFilesA.resolveMaxDepth req.maxDepthParam req.maxDepthParam2
        env.listfilesMaxDepth = some 0) :
    (ListFilesA.create_entities req env).entities = ListFilesA.directChildFiles t := by
  unfold ListFilesA.create_entities
  rw [hpath]
  simp only [hrec, hdepth]
  exact ListFilesA.iterFiles_depth_zero t

namespace ListFilesA

/-- A sample directory tree: a root file, a subdirectory holding a file,
and a symlink. -/
def sampleTree : FsTree :=
  .file "a" (.dir "d" (.file "b" .nil) (.symlinkFile "s" .nil))

/-- A sample request: path resolves to sampleTree, recursion requested via
parameter value "1", max_depth requested as "0". -/
def sampleRequest : Request :=
  { pathState := .dir sampleTree
  , recursiveParam := some "1"
  , maxDepthParam := some "0"
  , maxDepthParam2 := none }

/-- An environment with neither override variable set. -/
def emptyListEnv : ListEnv := { listfilesRecursive := none, listfilesMaxDepth := none }

end ListFilesA

/-- Witness for C1 at a concrete tree, request and environment. -/
theorem listfiles_max_depth_zero_witness :
    (ListFilesA.create_entities ListFilesA.sampleRequest ListFilesA.emptyListEnv).entities =
      ListFilesA.directChildFiles ListFilesA.sampleTree :=
  listfiles_max_depth_zero ListFilesA.sampleRequest ListFilesA.emptyListEnv
    ListFilesA.sampleTree rfl (by decide) (by decide)

/-- C9: the walker never follows symbolic links: deleting every symlink
entry from the tree, at any depth, leaves the emitted records unchanged,
under every recursion flag, depth limit, prefix and starting depth. -/
theorem iterFiles_ignores_symlinks (recursive : Bool) (maxDepth : Option Int)
    (pref : List String) (curDepth : Nat) (t : ListFilesA.FsTree) :
    ListFilesA.iterFiles recursive maxDepth pref curDepth (ListFilesA.removeSymlinks t) =
      ListFilesA.iterFiles recursive maxDepth pref curDepth t := by
  induction t generalizing pref curDepth with
  | nil => rfl
  | file n rest ih => simp [ListFilesA.iterFiles, ListFilesA.removeSymlinks, ih]
  | dir n children rest ih1 ih2 =>
      simp [ListFilesA.iterFiles, ListFilesA.removeSymlinks, ih1, ih2]
  | symlinkFile n rest ih => simp [ListFilesA.iterFiles, ListFilesA.removeSymlinks, ih]
  | symlinkDir n target rest _ ih2 =>
      simp [ListFilesA.iterFiles, ListFilesA.removeSymlinks, ih2]
  | other n rest ih => simp [ListFilesA.iterFiles, ListFilesA.removeSymlinks, ih]

/-- C8 counterexample: for an invocation whose input path does not exist,
create_entities returns early with only a PartialError message and never
produces the informational summary, so the number of informational
messages is 0, not 1. -/
theorem listfiles_summary_cex :
    ¬ (((ListFilesA.create_entities
          { pathState := .missing, recursiveParam := none
          , maxDepthParam := none, maxDepthParam2 := none }
          ListFilesA.emptyListEnv).messages.filter ListFilesA.UIMsg.isInfo).length = 1) := by
  decide

/-- C8 amended: for every invocation whose input path exists and is a
directory, the messages are exactly one informational summary carrying the
total number of emitted records, the recursion mode and the depth limit;
an invocation whose path is missing or not a directory instead produces
exactly one PartialError message and no summary. -/
theorem listfiles_summary_amended (t : ListFilesA.FsTree) (rp mp mp2 er em : Option String) :
    (ListFilesA.create_entities
        { pathState := .dir t, recursiveParam := rp
        , maxDepthParam := mp, maxDepthParam2 := mp2 }
        { listfilesRecursive := er, listfilesMaxDepth := em }).messages =
      [.infoMsg
        (ListFilesA.create_entities
          { pathState := .dir t, recursiveParam := rp
          , maxDepthParam := mp, maxDepthParam2 := mp2 }
          { listfilesRecursive := er, listfilesMaxDepth := em }).entities.length
        (ListFilesA.resolveRecursive rp er)
        (ListFilesA.resolveMaxDepth mp mp2 em)]
    ∧ (ListFilesA.create_entities
        { pathState := .missing, recursiveParam := rp
        , maxDepthParam := mp, maxDepthParam2 := mp2 }
        { listfilesRecursive := er, listfilesMaxDepth := em }).messages = [.errorMsg]
    ∧ (ListFilesA.create_entities
        { pathState := .notDir, recursiveParam := rp
        , maxDepthParam := mp, maxDepthParam2 := mp2 }
        { listfilesRecursive := er, listfilesMaxDepth := em }).messages = [.errorMsg] := by
  refine ⟨?_, rfl, rfl⟩
  simp [ListFilesA.create_entities]

/-- C10 counterexample: the parameter value "" is supplied and is not
parseable as an integer, yet the resolved max_depth is not None: the
empty string is falsy, so the Python or-chain discards it and the
LISTFILES_MAXDEPTH environment variable (here "2") is consulted. -/
theorem maxdepth_unparseable_cex :
    PyStr.pyIntOfString "" = none ∧
    ¬ (ListFilesA.resolveMaxDepth (some "") none (some "2") = none) ∧
    ListFilesA.resolveMaxDepth (some "") none (some "2") = some 2 := by
  refine ⟨rfl, ?_, by decide⟩
  decide

/-- C10 amended: when the parameter chain yields a value (non-falsy under
Python or, so an empty-string first parameter with no second parameter
does not count as supplied) and that value is not parseable as an
integer, the resolved max_depth is None — unbounded depth — and the
LISTFILES_MAXDEPTH environment variable is not consulted, whatever it
holds. -/
theorem maxdepth_unparseable_amended (r1 r2 envMd : Option String) (s : String)
    (h1 : ListFilesA.orParam r1 r2 = some s)
    (h2 : PyStr.pyIntOfString s = none) :
    ListFilesA.resolveMaxDepth r1 r2 envMd = none := by
  unfold ListFilesA.resolveMaxDepth
  rw [h1]
  exact h2

/-- Witness for the amended C10 at the unparseable parameter "abc" with
the environment variable holding the valid integer "2". -/
theorem maxdepth_unparseable_amended_witness :
    ListFilesA.resolveMaxDepth (some "abc") none (some "2") = none :=
  maxdepth_unparseable_amended (some "abc") none (some "2") "abc" rfl (by decide)

namespace EmailReport

open PyStr

/-- One row of the report: the fields extracted per message. -/
structure MessageRecord where
  sourceAccount : String
  date : String
  sender : String
  subject : String
deriving Repr, DecidableEq

/-- The Python exception classes relevant to the fetch path. Auth failures
on IMAP and POP3 surface as the same exception classes as other protocol
errors, so they are a flag on those constructors, not a class of their
own. All of these derive from Exception (so `except Exception` catches
every one of them). -/
inductive PyExc where
  | imapError (isAuth : Bool) : PyExc
  | popError (isAuth : Bool) : PyExc
  | timeoutErr : PyExc
  | otherExc : PyExc
deriving Repr, DecidableEq

/-- Externally visible side effects of the script, in order. -/
inductive Effect where
  | sleepFor (seconds : Nat) : Effect
  | writeExcel : Effect
  | writeCsv : Effect
  | smtpAttempt (attempt : Nat) : Effect
deriving Repr, DecidableEq

/-- Behaviour of one IMAP fetch attempt, supplied by the environment:
either the connection, login, select and search all succeed and the
server yields a list of per-message outcomes (each message either
producing its record or raising), or select/search report a non-OK
status (the function returns early with what it has), or some call in
the attempt raises, with `collected` the records gathered before the
raise (nonempty only when the raise happens at close/logout). -/
inductive ImapAttempt where
  | conn (messages : List (Except PyExc MessageRecord)) : ImapAttempt
  | badStatus : ImapAttempt
  | raiseExc (collected : List MessageRecord) (e : PyExc) : ImapAttempt

/-- The per-message loop of fetch_from_imap: a message whose fetch or
parse raises is logged and skipped (`except Exception: continue`), all
modelled exceptions being Exceptions; the others append their record. -/
def processImapMessages (msgs : List (Except PyExc MessageRecord)) : List MessageRecord :=
  msgs.filterMap (fun m =>
    match m with
    | .ok r => some r
    | .error _ => none)

/-- Shallow embedding of fetch_from_imap (email_report.py lines 124-205):
an imaplib.IMAP4.error with retry_count < MAX_RETRIES sleeps
2 ** retry_count and returns the result of the whole fetch re-attempted
at retry_count + 1 (whose own exceptions would propagate, hence the
Except result); with retries exhausted, or on TimeoutError, or on any
other Exception, the function returns the records collected so far. -/
def fetch_from_imap (maxRetries : Nat) (att : Nat → ImapAttempt) (retryCount : Nat) :
    Except PyExc (List MessageRecord × List Effect) :=
  match att retryCount with
  | .conn msgs => .ok (processImapMessages msgs, [])
  | .badStatus => .ok ([], [])
  | .raiseExc collected e =>
    match e with
    | .imapError _ =>
      if h : retryCount < maxRetries then
        match fetch_from_imap maxRetries att (retryCount + 1) with
        | .ok (recs, effs) => .ok (recs, .sleepFor (2 ^ retryCount) :: effs)
        | .error e2 => .error e2
      else .ok (collected, [])
    | .timeoutErr => .ok (collected, [])
    | _ => .ok (collected, [])
termination_by maxRetries - retryCount
decreasing_by omega

/-- One message as retrieved by the POP3 loop: the Date header parse
result (a naive timestamp, none when email.utils parsing raises) and the
record the message would contribute. -/
structure PopMsg where
  dateParsed : Option Int
  record : MessageRecord
deriving Repr, DecidableEq

/-- Behaviour of one POP3 fetch attempt, supplied by the environment. -/
inductive PopAttempt where
  | conn (messages : List (Except PyExc PopMsg)) : PopAttempt
  | raiseExc (collected : List MessageRecord) (e : PyExc) : PopAttempt

/-- The per-message loop of fetch_from_pop3: a message whose retrieval
raises is skipped; one whose parsed date is strictly older than the
cutoff is skipped by `continue`; one whose date fails to parse falls
through the handler and is included. -/
def processPopMessages (cutoff : Int) (msgs : List (Except PyExc PopMsg)) :
    List MessageRecord :=
  msgs.filterMap (fun m =>
    match m with
    | .error _ => none
    | .ok pm =>
      match pm.dateParsed with
      | some d => if d < cutoff then none else some pm.record
      | none => some pm.record)

/-- Shallow embedding of fetch_from_pop3 (email_report.py lines 207-289):
identical retry structure to the IMAP path, but the retried exception
class is poplib.error_proto and the date window is applied client-side
per message. -/
def fetch_from_pop3 (maxRetries : Nat) (cutoff : Int) (att : Nat → PopAttempt)
    (retryCount : Nat) : Except PyExc (List MessageRecord × List Effect) :=
  match att retryCount with
  | .conn msgs => .ok (processPopMessages cutoff msgs, [])
  | .raiseExc collected e =>
    match e with
    | .popError _ =>
      if h : retryCount < maxRetries then
        match fetch_from_pop3 maxRetries cutoff att (retryCount + 1) with
        | .ok (recs, effs) => .ok (recs, .sleepFor (2 ^ retryCount) :: effs)
        | .error e2 => .error e2
      else .ok (collected, [])
    | .timeoutErr => .ok (collected, [])
    | _ => .ok (collected, [])
termination_by maxRetries - retryCount
decreasing_by omega

/-- What the mail servers would do on each attempt, plus the POP3 date
cutoff (now minus the lookback window at the moment of the fetch). -/
structure ServerEnv where
  imapAttempts : Nat → ImapAttempt
  popAttempts : Nat → PopAttempt
  popCutoff : Int

/-- Shallow embedding of fetch_from_account (email_report.py lines
110-122): dispatch on the account's protocol value, upper-cased, with
IMAP the default for anything other than POP3. -/
def fetch_from_account (maxRetries : Nat) (env : ServerEnv) (protocol : Option String)
    (retryCount : Nat) : Except PyExc (List MessageRecord × List Effect) :=
  if upperStr (protocol.getD "IMAP") = "POP3" then
    fetch_from_pop3 maxRetries env.popCutoff env.popAttempts retryCount
  else
    fetch_from_imap maxRetries env.imapAttempts retryCount

/-- Outcome of one SMTP send attempt, supplied by the environment. -/
inductive SendOutcome where
  | success : SendOutcome
  | authError : SendOutcome
  | otherError : SendOutcome
deriving Repr, DecidableEq

/-- Environment of send_consolidated_report: whether the Excel writer
succeeds, whether the fallback CSV write succeeds, and the outcome of
each SMTP attempt. -/
structure SendEnv where
  excelOk : Bool
  csvOk : Bool
  outcomes : Nat → SendOutcome

/-- The send-with-retry loop of send_consolidated_report (lines 362-380):
success returns True at once; smtplib.SMTPAuthenticationError breaks out
of the loop (no retry) and the function falls through to return False;
any other Exception sleeps 2 ** attempt when this is not the last
attempt; a fully exhausted loop falls through to return False. -/
def sendLoop (outcomes : Nat → SendOutcome) (maxRetries : Nat) (attempt : Nat) :
    Bool × List Effect :=
  if h : attempt < maxRetries then
    match outcomes attempt with
    | .success => (true, [.smtpAttempt attempt])
    | .authError => (false, [.smtpAttempt attempt])
    | .otherError =>
      if attempt < maxRetries - 1 then
        let r := sendLoop outcomes maxRetries (attempt + 1)
        (r.1, .smtpAttempt attempt :: .sleepFor (2 ^ attempt) :: r.2)
      else (false, [.smtpAttempt attempt])
  else (false, [])
termination_by maxRetries - attempt
decreasing_by omega

/-- Shallow embedding of send_consolidated_report (lines 291-386): an
empty record set returns False before any artifact write or send
attempt; otherwise the report artifact is written (Excel, else the CSV
fallback, else the raise is caught by the outer handler and the
function returns False with no send attempted) and the send loop runs. -/
def send_consolidated_report (env : SendEnv) (maxRetries : Nat)
    (records : List MessageRecord) : Bool × List Effect :=
  if records.isEmpty then (false, [])
  else if env.excelOk then
    let r := sendLoop env.outcomes maxRetries 0
    (r.1, .writeExcel :: r.2)
  else if env.csvOk then
    let r := sendLoop env.outcomes maxRetries 0
    (r.1, .writeCsv :: r.2)
  else (false, [])

/-- Shallow embedding of the tail of the main block (lines 440-459): with
records collected, the report is built and sent and the process exits 0
on success and 1 on failure; with no records at all the process exits 0
without calling send_consolidated_report. -/
def mainTail (env : SendEnv) (maxRetries : Nat) (masterList : List MessageRecord) :
    Nat × List Effect :=
  if masterList.isEmpty then (0, [])
  else
    let r := send_consolidated_report env maxRetries masterList
    (if r.1 then 0 else 1, r.2)

end EmailReport

namespace EmailReport

/-- Helper for C3: whatever each IMAP attempt does, fetch_from_imap
returns ok; by fuel-indexed induction on the remaining retry budget. -/
theorem fetch_from_imap_never_raises (maxR : Nat) (att : Nat → ImapAttempt) :
    ∀ fuel rc, maxR - rc ≤ fuel → ∃ p, fetch_from_imap maxR att rc = Except.ok p := by
  intro fuel
  induction fuel with
  | zero =>
    intro rc hrc
    rw [fetch_from_imap.eq_def]
    split
    · exact ⟨_, rfl⟩
    · exact ⟨_, rfl⟩
    · split
      · split
        · next h => exact absurd h (by omega)
        · exact ⟨_, rfl⟩
      · exact ⟨_, rfl⟩
      · exact ⟨_, rfl⟩
  | succ fuel ih =>
    intro rc hrc
    rw [fetch_from_imap.eq_def]
    split
    · exact ⟨_, rfl⟩
    · exact ⟨_, rfl⟩
    · split
      · split
        · next h =>
            obtain ⟨⟨r, e⟩, hp⟩ := ih (rc + 1) (by omega)
            rw [hp]
            exact ⟨_, rfl⟩
        · exact ⟨_, rfl⟩
      · exact ⟨_, rfl⟩
      · exact ⟨_, rfl⟩

/-- Helper for C3: the POP3 analogue of fetch_from_imap_never_raises. -/
theorem fetch_from_pop3_never_raises (maxR : Nat) (cutoff : Int) (att : Nat → PopAttempt) :
    ∀ fuel rc, maxR - rc ≤ fuel →
      ∃ p, fetch_from_pop3 maxR cutoff att rc = Except.ok p := by
  intro fuel
  induction fuel with
  | zero =>
    intro rc hrc
    rw [fetch_from_pop3.eq_def]
    split
    · exact ⟨_, rfl⟩
    · split
      · split
        · next h => exact absurd h (by omega)
        · exact ⟨_, rfl⟩
      · exact ⟨_, rfl⟩
      · exact ⟨_, rfl⟩
  | succ fuel ih =>
    intro rc hrc
    rw [fetch_from_pop3.eq_def]
    split
    · exact ⟨_, rfl⟩
    · split
      · split
        · next h =>
            obtain ⟨⟨r, e⟩, hp⟩ := ih (rc + 1) (by omega)
            rw [hp]
            exact ⟨_, rfl⟩
        · exact ⟨_, rfl⟩
      · exact ⟨_, rfl⟩
      · exact ⟨_, rfl⟩

end EmailReport

/-- C3: for every account configuration (protocol string) and every
behaviour of the mail server on every attempt — connection failure,
authentication failure, timeout, per-message errors — fetch_from_account
never propagates an exception and always returns a (possibly empty)
list of message records. -/
theorem fetch_from_account_total (maxR : Nat) (env : EmailReport.ServerEnv)
    (protocol : Option String) (rc : Nat) :
    ∃ records effects,
      EmailReport.fetch_from_account maxR env protocol rc = Except.ok (records, effects) := by
  unfold EmailReport.fetch_from_account
  split
  · obtain ⟨⟨r, e⟩, hp⟩ :=
      EmailReport.fetch_from_pop3_never_raises maxR env.popCutoff env.popAttempts
        (maxR - rc) rc (le_refl _)
    exact ⟨r, e, hp⟩
  · obtain ⟨⟨r, e⟩, hp⟩ :=
      EmailReport.fetch_from_imap_never_raises maxR env.imapAttempts
        (maxR - rc) rc (le_refl _)
    exact ⟨r, e, hp⟩

/-- C2: a protocol-level error (imaplib.IMAP4.error on IMAP,
poplib.error_proto on POP3) at retry count rc below the maximum sleeps
2 ** rc seconds and re-attempts the entire per-account fetch at
rc + 1 — identically whether or not the error was an authentication
failure, since quantified over the isAuth flag — whereas a TimeoutError
is never retried: the fetch ends at once with no sleep. -/
theorem fetch_retry_policy (maxR rc : Nat) (cutoff : Int)
    (collected : List EmailReport.MessageRecord) (a : Bool)
    (att attT : Nat → EmailReport.ImapAttempt)
    (attP attPT : Nat → EmailReport.PopAttempt)
    (hrc : rc < maxR)
    (h1 : att rc = .raiseExc collected (.imapError a))
    (h2 : attP rc = .raiseExc collected (.popError a))
    (h3 : attT rc = .raiseExc collected .timeoutErr)
    (h4 : attPT rc = .raiseExc collected .timeoutErr) :
    EmailReport.fetch_from_imap maxR att rc =
      (match EmailReport.fetch_from_imap maxR att (rc + 1) with
       | .ok (recs, effs) => .ok (recs, .sleepFor (2 ^ rc) :: effs)
       | .error e2 => .error e2)
    ∧ EmailReport.fetch_from_pop3 maxR cutoff attP rc =
      (match EmailReport.fetch_from_pop3 maxR cutoff attP (rc + 1) with
       | .ok (recs, effs) => .ok (recs, .sleepFor (2 ^ rc) :: effs)
       | .error e2 => .error e2)
    ∧ EmailReport.fetch_from_imap maxR attT rc = .ok (collected, [])
    ∧ EmailReport.fetch_from_pop3 maxR cutoff attPT rc = .ok (collected, []) := by
  refine ⟨?_, ?_, ?_, ?_⟩
  · conv_lhs => rw [EmailReport.fetch_from_imap.eq_def]
    rw [h1]
    exact dif_pos hrc
  · conv_lhs => rw [EmailReport.fetch_from_pop3.eq_def]
    rw [h2]
    exact dif_pos hrc
  · rw [EmailReport.fetch_from_imap.eq_def, h3]
  · rw [EmailReport.fetch_from_pop3.eq_def, h4]

namespace EmailReport

/-- Imap attempts that always raise a protocol (auth) error. -/
def attWI : Nat → ImapAttempt := fun _ => .raiseExc [] (.imapError true)

/-- Imap attempts that always raise TimeoutError. -/
def attWIT : Nat → ImapAttempt := fun _ => .raiseExc [] .timeoutErr

/-- POP3 attempts that always raise a protocol (auth) error. -/
def attWP : Nat → PopAttempt := fun _ => .raiseExc [] (.popError true)

/-- POP3 attempts that always raise TimeoutError. -/
def attWPT : Nat → PopAttempt := fun _ => .raiseExc [] .timeoutErr

end EmailReport

/-- Witness for C2 at retry count 0 of a 3-retry configuration. -/
theorem fetch_retry_policy_witness :
    EmailReport.fetch_from_imap 3 EmailReport.attWI 0 =
      (match EmailReport.fetch_from_imap 3 EmailReport.attWI 1 with
       | .ok (recs, effs) => .ok (recs, .sleepFor (2 ^ 0) :: effs)
       | .error e2 => .error e2)
    ∧ EmailReport.fetch_from_pop3 3 0 EmailReport.attWP 0 =
      (match EmailReport.fetch_from_pop3 3 0 EmailReport.attWP 1 with
       | .ok (recs, effs) => .ok (recs, .sleepFor (2 ^ 0) :: effs)
       | .error e2 => .error e2)
    ∧ EmailReport.fetch_from_imap 3 EmailReport.attWIT 0 = .ok ([], [])
    ∧ EmailReport.fetch_from_pop3 3 0 EmailReport.attWPT 0 = .ok ([], []) :=
  fetch_retry_policy 3 0 0 [] true EmailReport.attWI EmailReport.attWIT
    EmailReport.attWP EmailReport.attWPT (by decide) rfl rfl rfl rfl

namespace EmailReport

/-- Spec-side predicate for C7: a retrieved message is kept unless its
Date header parsed and the parsed date is strictly older than the
cutoff; a message whose date failed to parse is kept. -/
def keptByDate (cutoff : Int) (pm : PopMsg) : Bool :=
  match pm.dateParsed with
  | some d => !(decide (d < cutoff))
  | none => true

/-- The messages whose individual retrieval did not raise. -/
def retrievedOk : Except PyExc PopMsg → Option PopMsg
  | .ok pm => some pm
  | .error _ => none

/-- Helper for C7: the POP3 per-message loop keeps exactly the
successfully retrieved messages passing the date predicate, in order. -/
theorem processPopMessages_eq_filter (cutoff : Int) (msgs : List (Except PyExc PopMsg)) :
    processPopMessages cutoff msgs =
      ((msgs.filterMap retrievedOk).filter (keptByDate cutoff)).map PopMsg.record := by
  induction msgs with
  | nil => rfl
  | cons m rest ih =>
    cases m with
    | error e => simpa [processPopMessages, retrievedOk] using ih
    | ok pm =>
      cases hd : pm.dateParsed with
      | none =>
        simp [processPopMessages, retrievedOk, keptByDate, hd] at ih ⊢
        exact ih
      | some d =>
        by_cases hlt : d < cutoff
        · simp [processPopMessages, retrievedOk, keptByDate, hd, hlt] at ih ⊢
          exact ih
        · simp [processPopMessages, retrievedOk, keptByDate, hd, hlt] at ih ⊢
          exact ih

end EmailReport

/-- C7: on a POP3 attempt whose connection and listing succeed, the fetch
returns exactly the records of the retrieved messages that are not
strictly older than the cutoff, with messages whose Date header failed to
parse included rather than dropped. -/
theorem pop3_date_filter (maxR : Nat) (cutoff : Int)
    (att : Nat → EmailReport.PopAttempt) (rc : Nat)
    (msgs : List (Except EmailReport.PyExc EmailReport.PopMsg))
    (h : att rc = .conn msgs) :
    EmailReport.fetch_from_pop3 maxR cutoff att rc =
      .ok (((msgs.filterMap EmailReport.retrievedOk).filter
              (EmailReport.keptByDate cutoff)).map EmailReport.PopMsg.record, []) := by
  rw [EmailReport.fetch_from_pop3.eq_def, h]
  show Except.ok (EmailReport.processPopMessages cutoff msgs, ([] : List EmailReport.Effect)) = _
  rw [EmailReport.processPopMessages_eq_filter]

namespace EmailReport

/-- A concrete POP3 inbox: one message strictly older than cutoff 0, one
newer, one with an unparseable date, one whose retrieval raises. -/
def popMsgsW : List (Except PyExc PopMsg) :=
  [ .ok { dateParsed := some (-5)
        , record := { sourceAccount := "a@x", date := "d1", sender := "s1", subject := "old" } }
  , .ok { dateParsed := some 3
        , record := { sourceAccount := "a@x", date := "d2", sender := "s2", subject := "new" } }
  , .ok { dateParsed := none
        , record := { sourceAccount := "a@x", date := "d3", sender := "s3", subject := "noparse" } }
  , .error .otherExc ]

/-- POP3 attempts that always connect and list popMsgsW. -/
def attWC : Nat → PopAttempt := fun _ => .conn popMsgsW

end EmailReport

/-- Witness for C7 on the concrete inbox popMsgsW with cutoff 0. -/
theorem pop3_date_filter_witness :
    EmailReport.fetch_from_pop3 3 0 EmailReport.attWC 0 =
      .ok (((EmailReport.popMsgsW.filterMap EmailReport.retrievedOk).filter
              (EmailReport.keptByDate 0)).map EmailReport.PopMsg.record, []) :=
  pop3_date_filter 3 0 EmailReport.attWC 0 EmailReport.popMsgsW rfl

/-- C5: an empty aggregated record set short-circuits: the report
function returns False at once with no artifact written and no SMTP
attempt made (empty effect trace), and the main tail exits 0 with no
effect at all when no records were collected. -/
theorem empty_report_no_send (env : EmailReport.SendEnv) (maxR : Nat) :
    EmailReport.send_consolidated_report env maxR [] = (false, [])
    ∧ EmailReport.mainTail env maxR [] = (0, []) := by
  constructor
  · simp [EmailReport.send_consolidated_report]
  · simp [EmailReport.mainTail]

namespace EmailReport

/-- The effect trace of a run of consecutive failed-and-retried send
attempts from `attempt` up to (excluding) `k`: each attempt is followed
by its exponential-backoff sleep of 2 ** attempt seconds. -/
def failTraceFrom (attempt k : Nat) : List Effect :=
  if attempt < k then
    .smtpAttempt attempt :: .sleepFor (2 ^ attempt) :: failTraceFrom (attempt + 1) k
  else []
termination_by k - attempt
decreasing_by omega

/-- Helper for C6: if every outcome in [attempt, k) is a non-auth error
and the loop at k returns False after its single attempt, then the loop
from `attempt` returns False with the backoff trace followed by that
final attempt. -/
theorem sendLoop_otherErrors (outcomes : Nat → SendOutcome) (maxR k : Nat)
    (hk : k < maxR)
    (hend : sendLoop outcomes maxR k = (false, [.smtpAttempt k])) :
    ∀ fuel attempt, k - attempt ≤ fuel → attempt ≤ k →
      (∀ j, attempt ≤ j → j < k → outcomes j = .otherError) →
      sendLoop outcomes maxR attempt = (false, failTraceFrom attempt k ++ [.smtpAttempt k]) := by
  intro fuel
  induction fuel with
  | zero =>
    intro attempt hfuel hle _
    have hak : attempt = k := by omega
    subst hak
    rw [failTraceFrom]
    rw [if_neg (by omega)]
    simpa using hend
  | succ fuel ih =>
    intro attempt hfuel hle hother
    by_cases hak : attempt = k
    · subst hak
      rw [failTraceFrom]
      rw [if_neg (by omega)]
      simpa using hend
    · have hlt : attempt < k := by omega
      have hmain : outcomes attempt = .otherError := hother attempt (le_refl _) hlt
      have hrec := ih (attempt + 1) (by omega) (by omega)
        (fun j hj1 hj2 => hother j (by omega) hj2)
      rw [sendLoop.eq_def]
      rw [dif_pos (by omega : attempt < maxR), hmain]
      rw [if_pos (by omega : attempt < maxR - 1)]
      rw [hrec]
      conv_rhs => rw [failTraceFrom, if_pos hlt]
      rfl

end EmailReport

/-- C6: with records present and the artifact written, if the first k
send attempts fail with non-auth errors, then an SMTPAuthenticationError
at attempt k makes send_consolidated_report stop at once — the trace ends
at attempt k with no sleep and no further attempt — and return False;
whereas a further non-auth error at attempt k, when k is the last allowed
attempt, produces the same False result only after the loop has retried
with exponential backoff at every earlier attempt until the configured
maximum was reached. -/
theorem send_report_auth_stops (env : EmailReport.SendEnv) (maxR k : Nat)
    (records : List EmailReport.MessageRecord)
    (hne : records ≠ [])
    (hexcel : env.excelOk = true)
    (hbefore : ∀ j, j < k → env.outcomes j = .otherError)
    (hk : k < maxR) :
    (env.outcomes k = .authError →
      EmailReport.send_consolidated_report env maxR records =
        (false, .writeExcel :: (EmailReport.failTraceFrom 0 k ++ [.smtpAttempt k])))
    ∧ (env.outcomes k = .otherError → k = maxR - 1 →
      EmailReport.send_consolidated_report env maxR records =
        (false, .writeExcel :: (EmailReport.failTraceFrom 0 k ++ [.smtpAttempt k]))) := by
  have hmain : ∀ hend : EmailReport.sendLoop env.outcomes maxR k = (false, [.smtpAttempt k]),
      EmailReport.send_consolidated_report env maxR records =
        (false, .writeExcel :: (EmailReport.failTraceFrom 0 k ++ [.smtpAttempt k])) := by
    intro hend
    have hloop := EmailReport.sendLoop_otherErrors env.outcomes maxR k hk hend
      k 0 (by omega) (by omega) (fun j _ hj => hbefore j hj)
    unfold EmailReport.send_consolidated_report
    rw [if_neg (by simpa [List.isEmpty_iff] using hne), if_pos hexcel, hloop]
  constructor
  · intro hauth
    apply hmain
    rw [EmailReport.sendLoop.eq_def, dif_pos hk, hauth]
  · intro hother hlast
    apply hmain
    rw [EmailReport.sendLoop.eq_def, dif_pos hk, hother]
    rw [if_neg (by omega)]

namespace EmailReport

/-- A sample message record. -/
def sampleRecord : MessageRecord :=
  { sourceAccount := "a@x", date := "Mon, 1 Jan 2026 10:00:00", sender := "s@y", subject := "hi" }

/-- A send environment whose first two SMTP attempts fail with generic
errors and whose third raises SMTPAuthenticationError. -/
def sendEnvW : SendEnv :=
  { excelOk := true
  , csvOk := true
  , outcomes := fun j => if j < 2 then .otherError else .authError }

end EmailReport

/-- Witness for C6 with three allowed attempts, two generic failures and
an authentication error at attempt 2. -/
theorem send_report_auth_stops_witness :
    (EmailReport.sendEnvW.outcomes 2 = .authError →
      EmailReport.send_consolidated_report EmailReport.sendEnvW 3 [EmailReport.sampleRecord] =
        (false, .writeExcel :: (EmailReport.failTraceFrom 0 2 ++ [.smtpAttempt 2])))
    ∧ (EmailReport.sendEnvW.outcomes 2 = .otherError → 2 = 3 - 1 →
      EmailReport.send_consolidated_report EmailReport.sendEnvW 3 [EmailReport.sampleRecord] =
        (false, .writeExcel :: (EmailReport.failTraceFrom 0 2 ++ [.smtpAttempt 2]))) :=
  send_report_auth_stops EmailReport.sendEnvW 3 2 [EmailReport.sampleRecord]
    (List.cons_ne_nil _ _) rfl (fun j hj => if_pos hj) (by decide)

namespace EmailReport

open PyStr

/-- The configuration namespace: environment key/value pairs, keys as
character lists so the numbered-key pattern match is literal string
processing as in the source regex. -/
abbrev EnvMap := List (List Char × String)

/-- os.environ.get: the value at the first matching key, if any. -/
def envGet (env : EnvMap) (k : List Char) : Option String :=
  (env.find? (fun p => p.1 == k)).map (fun p => p.2)

/-- The key ACCOUNT_{n}{tail}, e.g. accountKey 3 "_EMAIL". -/
def accountKey (n : Nat) (tail : String) : List Char :=
  "ACCOUNT_".data ++ natChars n ++ tail.data

/-- Matching of one environment key against the compiled pattern
r'^ACCOUNT_(\d+)_EMAIL$' followed by int() on the digit group (ASCII
digits; Unicode digit matching is not modelled). -/
def matchAccountKey (k : List Char) : Option Nat :=
  if "ACCOUNT_".data.isPrefixOf k && "_EMAIL".data.isSuffixOf k then
    parseNat ((k.drop 8).take (k.length - 14))
  else none

/-- Realization of Python sorted(set(l)): the ascending list of the
distinct elements of l. -/
def sortedDistinct (l : List Nat) : List Nat :=
  (List.range (l.foldr max 0 + 1)).filter (fun n => decide (n ∈ l))

/-- One discovered account configuration. -/
structure Account where
  email : String
  password : String
  server : String
  protocol : String
deriving Repr, DecidableEq

/-- The account dictionary built for one discovered number
(email_report.py lines 53-72): password defaults to "", protocol
defaults to IMAP and is upper-cased, and the server default follows the
protocol (POP3 to pop.gmail.com, anything else to imap.gmail.com). -/
def buildAccount (env : EnvMap) (n : Nat) : Account :=
  let protocol := upperStr ((envGet env (accountKey n "_PROTOCOL")).getD "IMAP")
  let defaultServer := if protocol = "POP3" then "pop.gmail.com" else "imap.gmail.com"
  { email := (envGet env (accountKey n "_EMAIL")).getD ""
  , password := (envGet env (accountKey n "_PASS")).getD ""
  , server := (envGet env (accountKey n "_SERVER")).getD defaultServer
  , protocol := protocol }

/-- Shallow embedding of discover_accounts (email_report.py lines
36-74): collect the set of numbers whose keys match the pattern, walk
them in ascending order, and keep an account exactly when the address
value ACCOUNT_{n}_EMAIL is present and non-empty (Python truthiness of
the string returned by os.environ.get). -/
def discover_accounts (env : EnvMap) : List Account :=
  (sortedDistinct (env.filterMap (fun p => matchAccountKey p.1))).filterMap (fun n =>
    match envGet env (accountKey n "_EMAIL") with
    | some addr => if addr = "" then none else some (buildAccount env n)
    | none => none)

/-- Whether number n's canonical email key holds a non-empty value, the
condition for it to contribute a descriptor. -/
def emailPred (env : EnvMap) (n : Nat) : Bool :=
  match envGet env (accountKey n "_EMAIL") with
  | some addr => !(addr == "")
  | none => false

/-- The numbers that actually produce a descriptor: discovered numbers
whose canonical email key holds a non-empty value. -/
def activeNums (env : EnvMap) : List Nat :=
  (sortedDistinct (env.filterMap (fun p => matchAccountKey p.1))).filter (emailPred env)

end EmailReport

namespace PyStr

/-- A decimal digit character is a digit. -/
theorem digitChar_isDigit {d : Nat} (hd : d < 10) : (digitChar d).isDigit = true := by
  interval_cases d <;> decide

/-- Code point of a decimal digit character. -/
theorem digitChar_toNat {d : Nat} (hd : d < 10) : (digitChar d).toNat = 48 + d := by
  interval_cases d <;> decide

/-- Appending one digit multiplies the accumulated value by ten. -/
theorem digitsVal_append_singleton (A : List Char) (c : Char) :
    digitsVal (A ++ [c]) = 10 * digitsVal A + (c.toNat - 48) := by
  have h : digitsVal (A ++ [c]) = digitsVal A * 10 + (c.toNat - 48) := by
    unfold digitsVal
    rw [List.foldl_append]
    rfl
  rw [h]
  omega

/-- The big-endian digit-character rendering evaluates back to the
number the little-endian digit list denotes. -/
theorem digitsVal_reverse_map (L : List Nat) (hL : ∀ d ∈ L, d < 10) :
    digitsVal ((L.map digitChar).reverse) = Nat.ofDigits 10 L := by
  induction L with
  | nil => rfl
  | cons d rest ih =>
    rw [List.map_cons, List.reverse_cons, digitsVal_append_singleton,
      ih (fun x hx => hL x (List.mem_cons_of_mem _ hx)),
      digitChar_toNat (hL d (List.mem_cons_self _ _)), Nat.ofDigits_cons]
    omega

/-- Round trip: parsing the decimal rendering of n gives n. -/
theorem parseNat_natChars (n : Nat) : parseNat (natChars n) = some n := by
  rcases Nat.eq_zero_or_pos n with h0 | hpos
  · subst h0
    decide
  · have hne : Nat.digits 10 n ≠ [] := Nat.digits_ne_nil_iff_ne_zero.mpr (by omega)
    have hdig : ∀ d ∈ Nat.digits 10 n, d < 10 :=
      fun d hd => Nat.digits_lt_base (by norm_num) hd
    have hform : natChars n = ((Nat.digits 10 n).map digitChar).reverse := by
      unfold natChars
      rw [if_neg (by omega)]
    have hempty : (natChars n).isEmpty = false := by
      rw [hform]
      cases hd : Nat.digits 10 n with
      | nil => exact absurd hd hne
      | cons a t => simp
    have hall : (natChars n).all Char.isDigit = true := by
      rw [hform, List.all_eq_true]
      intro c hc
      rw [List.mem_reverse] at hc
      obtain ⟨d, hdmem, rfl⟩ := List.mem_map.mp hc
      exact digitChar_isDigit (hdig d hdmem)
    have hval : digitsVal (natChars n) = n := by
      rw [hform, digitsVal_reverse_map _ hdig, Nat.ofDigits_digits]
    simp [parseNat, hempty, hall, hval]

/-- A list is a prefix of itself followed by anything, as a Bool. -/
theorem isPrefixOf_append_self (l m : List Char) : l.isPrefixOf (l ++ m) = true := by
  induction l with
  | nil => simp [List.isPrefixOf]
  | cons c t ih => simp [List.isPrefixOf, ih]

/-- A list is a suffix of anything followed by itself, as a Bool. -/
theorem isSuffixOf_append_self (l m : List Char) : l.isSuffixOf (m ++ l) = true := by
  unfold List.isSuffixOf
  rw [List.reverse_append]
  exact isPrefixOf_append_self _ _

end PyStr

namespace EmailReport

open PyStr

/-- The canonical email key of number n matches the account pattern and
yields n back. -/
theorem matchAccountKey_accountKey (n : Nat) :
    matchAccountKey (accountKey n "_EMAIL") = some n := by
  have h8 : ("ACCOUNT_".data).length = 8 := rfl
  have h6 : ("_EMAIL".data).length = 6 := rfl
  unfold matchAccountKey accountKey
  rw [List.append_assoc]
  have hsuf : ("_EMAIL".data).isSuffixOf
      ("ACCOUNT_".data ++ (natChars n ++ "_EMAIL".data)) = true := by
    rw [← List.append_assoc]
    exact isSuffixOf_append_self _ _
  rw [isPrefixOf_append_self, hsuf]
  simp only [Bool.and_self, if_true]
  have hlen : ("ACCOUNT_".data ++ (natChars n ++ "_EMAIL".data)).length - 14 =
      (natChars n).length := by
    simp only [List.length_append, h8, h6]
    omega
  have hdrop : ("ACCOUNT_".data ++ (natChars n ++ "_EMAIL".data)).drop 8 =
      natChars n ++ "_EMAIL".data := by
    rw [← h8]
    exact List.drop_left _ _
  rw [hdrop, hlen, List.take_left]
  exact parseNat_natChars n

/-- A successful environment lookup comes from a pair in the list whose
key is the one looked up. -/
theorem envGet_some_mem {env : EnvMap} {k : List Char} {v : String}
    (h : envGet env k = some v) : ∃ p, p ∈ env ∧ p.1 = k ∧ p.2 = v := by
  unfold envGet at h
  rw [Option.map_eq_some'] at h
  obtain ⟨q, hq, hv⟩ := h
  have hbeq := List.find?_some hq
  simp only [beq_iff_eq] at hbeq
  exact ⟨q, List.mem_of_find?_eq_some hq, hbeq, hv⟩

/-- Members of a list are bounded by its maximum fold. -/
theorem le_foldr_max {n : Nat} : ∀ {l : List Nat}, n ∈ l → n ≤ l.foldr max 0 := by
  intro l
  induction l with
  | nil => intro h; cases h
  | cons a t ih =>
    intro h
    rcases List.mem_cons.mp h with rfl | hmem
    · exact le_max_left _ _
    · exact le_trans (ih hmem) (le_max_right _ _)

/-- sortedDistinct keeps exactly the members. -/
theorem mem_sortedDistinct {l : List Nat} {n : Nat} : n ∈ sortedDistinct l ↔ n ∈ l := by
  unfold sortedDistinct
  rw [List.mem_filter]
  constructor
  · rintro ⟨-, h⟩
    exact of_decide_eq_true h
  · intro h
    exact ⟨List.mem_range.mpr (by have := le_foldr_max h; omega), decide_eq_true h⟩

/-- sortedDistinct is strictly ascending. -/
theorem sorted_sortedDistinct (l : List Nat) : List.Sorted (· < ·) (sortedDistinct l) :=
  List.Pairwise.filter _ (List.sorted_lt_range _)

end EmailReport

namespace EmailReport

/-- The descriptor condition spelled out. -/
theorem emailPred_iff {env : EnvMap} {n : Nat} :
    emailPred env n = true ↔
      ∃ v, envGet env (accountKey n "_EMAIL") = some v ∧ v ≠ "" := by
  unfold emailPred
  cases h : envGet env (accountKey n "_EMAIL") with
  | none => simp
  | some addr => simp

/-- The filterMap of discover_accounts is the map of buildAccount over
the numbers passing the descriptor condition. -/
theorem discover_filterMap_eq (env : EnvMap) (l : List Nat) :
    (l.filterMap (fun n =>
      match envGet env (accountKey n "_EMAIL") with
      | some addr => if addr = "" then none else some (buildAccount env n)
      | none => none)) = (l.filter (emailPred env)).map (buildAccount env) := by
  induction l with
  | nil => rfl
  | cons a t ih =>
    rw [List.filterMap_cons, List.filter_cons]
    cases h : envGet env (accountKey a "_EMAIL") with
    | none => simp [emailPred, h, ih]
    | some addr =>
      by_cases ha : addr = ""
      · simp [emailPred, h, ha, ih]
      · simp [emailPred, h, ha, ih]

end EmailReport

/-- C4: for every environment there is a strictly ascending list of
numbers — exactly those n for which ACCOUNT_{n}_EMAIL is set to a
non-empty value, contiguous or not — such that discover_accounts returns
exactly one descriptor per such number, in that order; a number whose
address value is unset (or empty) yields no descriptor. -/
theorem discover_accounts_ascending (env : EmailReport.EnvMap) :
    ∃ ns : List Nat,
      List.Sorted (· < ·) ns
      ∧ (∀ n, n ∈ ns ↔
          ∃ v, EmailReport.envGet env (EmailReport.accountKey n "_EMAIL") = some v ∧ v ≠ "")
      ∧ EmailReport.discover_accounts env = ns.map (EmailReport.buildAccount env) := by
  refine ⟨EmailReport.activeNums env, ?_, ?_, ?_⟩
  · exact List.Pairwise.filter _ (EmailReport.sorted_sortedDistinct _)
  · intro n
    unfold EmailReport.activeNums
    rw [List.mem_filter, ← EmailReport.emailPred_iff]
    constructor
    · rintro ⟨-, hpred⟩
      exact hpred
    · intro hpred
      refine ⟨?_, hpred⟩
      rw [EmailReport.mem_sortedDistinct, List.mem_filterMap]
      obtain ⟨v, hv, -⟩ := EmailReport.emailPred_iff.mp hpred
      obtain ⟨p, hpmem, hpk, -⟩ := EmailReport.envGet_some_mem hv
      refine ⟨p, hpmem, ?_⟩
      rw [hpk]
      exact EmailReport.matchAccountKey_accountKey n
  · unfold EmailReport.discover_accounts EmailReport.activeNums
    exact EmailReport.discover_filterMap_eq env _
